import Mathlib

/-!
Shallow embedding of the Collaborative Session Hub of the
whiteboard-realtime-backend repository (src/server.js: the Socket.IO
connection handling, its join-whiteboard authorization, the per-event
permission gates, the relay fan-out and the disconnect cleanup).

Conventions of the embedding:
 * JavaScript strings are Lean `String`; a field that may be `undefined`
   in JS is an `Option` (`none` models `undefined`).
 * A Socket.IO room is a duplicate-free list of socket ids; `socket.join`
   inserts, disconnect removes the socket from every room.
 * `socket.to(room).emit` delivers to every member of the room except the
   sending socket itself.
 * The MongoDB-backed lookups (`User.findById`, `Whiteboard.findById`) and
   `jwt.verify` are modelled by lookups in a fixed environment `Env`.
-/

/-- One entry of `whiteboard.collaborators`: a user id and a permission
level (`"view"`, `"edit"` or `"admin"` in the schema). -/
structure Collaborator where
  user : String
  permission : String
deriving DecidableEq, Repr

/-- The access-control part of a `Whiteboard` document: `_id`, `owner`,
`collaborators`, `isPublic` (models/Whiteboard.js). -/
structure Whiteboard where
  id : String
  owner : String
  collaborators : List Collaborator
  isPublic : Bool
deriving DecidableEq, Repr

/-- A `User` document: `_id` and `username`. -/
structure User where
  id : String
  username : String
deriving DecidableEq, Repr

/-- The external world the join handler consults: `jwt.verify` (a map from
token to the `userId` it decodes to; absence models a token that makes
`jwt.verify` throw), the user store and the whiteboard store. -/
structure Env where
  tokens : List (String × String)
  users : List User
  whiteboards : List Whiteboard
deriving Repr

/-- `User.findById` -/
def findUser (env : Env) (uid : String) : Option User :=
  env.users.find? (fun u => u.id = uid)

/-- `Whiteboard.findById` -/
def findWhiteboard (env : Env) (wid : String) : Option Whiteboard :=
  env.whiteboards.find? (fun w => w.id = wid)

/-- The permission block of the `join-whiteboard` handler (src/server.js):

```
let userRole = 'viewer'; let canEdit = false;
if (whiteboard.owner._id.toString() === user._id.toString()) {
  userRole = 'owner'; canEdit = true;
} else {
  const collaborator = whiteboard.collaborators.find(...);
  if (collaborator) {
    userRole = collaborator.permission;
    canEdit = ['edit', 'admin'].includes(collaborator.permission);
  } else if (whiteboard.isPublic) {
    userRole = 'viewer'; canEdit = false;
  } else { socket.emit('error', { message: 'Access denied' }); return; }
}
```

`none` is the `Access denied` early return; otherwise the result is the
pair `(userRole, canEdit)`. -/
def checkPermissions (wb : Whiteboard) (userId : String) : Option (String × Bool) :=
  if wb.owner = userId then
    some ("owner", true)
  else
    match wb.collaborators.find? (fun collab => collab.user = userId) with
    | some collab => some (collab.permission, ["edit", "admin"].contains collab.permission)
    | none => if wb.isPublic then some ("viewer", false) else none

/-- C1: for every access record and user id the join-time authorization
decision follows the precedence owner > collaborator > public > denied,
first match wins: the owner gets role `"owner"` with `canEdit = true`; a
collaborator gets that collaborator's permission level with `canEdit` true
iff the level is `"edit"` or `"admin"`; on a public record a non-owner
non-collaborator gets the view-tier role (spelled `"viewer"` in the code)
with `canEdit = false`; otherwise the decision is `Access denied`.  The
decision is a pure function of the record and the user id: equal inputs
give equal outputs. -/
theorem checkPermissions_precedence (wb : Whiteboard) (userId : String) :
    (wb.owner = userId → checkPermissions wb userId = some ("owner", true)) ∧
    (wb.owner ≠ userId →
      ∀ collab, wb.collaborators.find? (fun c => c.user = userId) = some collab →
        checkPermissions wb userId = some (collab.permission,
          decide (collab.permission = "edit" ∨ collab.permission = "admin"))) ∧
    (wb.owner ≠ userId →
      wb.collaborators.find? (fun c => c.user = userId) = none →
      wb.isPublic = true →
        checkPermissions wb userId = some ("viewer", false)) ∧
    (wb.owner ≠ userId →
      wb.collaborators.find? (fun c => c.user = userId) = none →
      wb.isPublic = false →
        checkPermissions wb userId = none) ∧
    (∀ wb' userId', wb = wb' → userId = userId' →
        checkPermissions wb userId = checkPermissions wb' userId') := by
  refine ⟨fun h => by simp [checkPermissions, h], fun h collab hc => ?_,
      fun h hc hp => by simp [checkPermissions, h, hc, hp],
      fun h hc hp => by simp [checkPermissions, h, hc, hp],
      fun wb' userId' h1 h2 => by rw [h1, h2]⟩
  simp only [checkPermissions, if_neg h, hc]
  congr 1
  rcases eq_or_ne collab.permission "edit" with h1 | h1
  · rw [h1]; decide
  · rcases eq_or_ne collab.permission "admin" with h2 | h2
    · rw [h2]; decide
    · simp [List.contains, List.elem, beq_false_of_ne h1, beq_false_of_ne h2, h1, h2]

/-- Witness for `checkPermissions_precedence` at concrete inputs: a record
owned by `"u1"` with collaborator `"u2"` at level `"edit"`, not public. -/
theorem checkPermissions_precedence_witness :
    checkPermissions ⟨"w1", "u1", [⟨"u2", "edit"⟩], false⟩ "u1" = some ("owner", true) ∧
    checkPermissions ⟨"w1", "u1", [⟨"u2", "edit"⟩], false⟩ "u2" = some ("edit", true) ∧
    checkPermissions ⟨"w1", "u1", [⟨"u2", "edit"⟩], false⟩ "u3" = none := by
  refine ⟨(checkPermissions_precedence ⟨"w1", "u1", [⟨"u2", "edit"⟩], false⟩ "u1").1 rfl, ?_, ?_⟩
  · have h := (checkPermissions_precedence ⟨"w1", "u1", [⟨"u2", "edit"⟩], false⟩ "u2").2.1
      (by decide) ⟨"u2", "edit"⟩ (by decide)
    simpa using h
  · exact (checkPermissions_precedence ⟨"w1", "u1", [⟨"u2", "edit"⟩], false⟩ "u3").2.2.2.1
      (by decide) (by decide) rfl

/-- A JSON-ish payload value; `none` models the JS `undefined`. -/
abbrev JVal := Option String

/-- An event payload: the ordered key/value pairs of a JS object. -/
abbrev Payload := List (String × JVal)

/-- JS object-spread override `{...p, k: v}`: when `k` is already a key its
value is replaced in place, otherwise `(k, v)` is appended. -/
def setKey (p : Payload) (k : String) (v : JVal) : Payload :=
  if p.any (fun kv => kv.1 == k) then
    p.map (fun kv => if kv.1 = k then (k, v) else kv)
  else p ++ [(k, v)]

/-- The per-connection fields the handlers store on the socket object
(`socket.userId`, `socket.username`, `socket.userRole`, `socket.canEdit`,
`socket.whiteboardId`); each is `undefined` (`none`) until the first
successful `join-whiteboard`. -/
structure Session where
  userId : Option String
  username : Option String
  userRole : Option String
  canEdit : Option Bool
  whiteboardId : Option String
deriving DecidableEq, Repr

/-- A freshly connected socket: no session field set yet. -/
def Session.fresh : Session := ⟨none, none, none, none, none⟩

/-- One entry of the `usersInRoom` list sent in `room-info`. -/
structure RoomUser where
  socketId : String
  username : Option String
  userRole : Option String
deriving DecidableEq, Repr

/-- A message emitted by the server: a flat-payload event to one socket, or
the structured `room-info` message to a joiner. -/
inductive Emit where
  | msg (target : String) (event : String) (payload : Payload)
  | roomInfo (target : String) (whiteboardId : String) (users : List RoomUser)
      (yourRole : String) (canEdit : Bool)
deriving DecidableEq, Repr

/-- The event name of an emitted message. -/
def Emit.eventName : Emit → String
  | .msg _ e _ => e
  | .roomInfo _ _ _ _ _ => "room-info"

/-- The socket an emitted message is delivered to. -/
def Emit.target : Emit → String
  | .msg t _ _ => t
  | .roomInfo t _ _ _ _ => t

/-- `socket.emit('error', { message: m })` to socket `sid`. -/
def errEmit (sid m : String) : Emit :=
  .msg sid "error" [("message", some m)]

/-- The server's in-memory state: the connected sockets with their session
fields (`io.sockets.sockets`), and the rooms (`io.sockets.adapter.rooms`),
each a duplicate-free list of member socket ids. -/
structure ServerState where
  sockets : List (String × Session)
  rooms : List (String × List String)
deriving DecidableEq, Repr

/-- The server state before any connection. -/
def ServerState.empty : ServerState := ⟨[], []⟩

/-- The member list of a room in a room table (empty when absent). -/
def membersOf (rooms : List (String × List String)) (r : String) : List String :=
  (rooms.lookup r).getD []

/-- The member list of a room of the server state. -/
def roomMembers (st : ServerState) (r : String) : List String :=
  membersOf st.rooms r

/-- Set-insert of a socket id into a member list (a Socket.IO room is a
`Set`: joining twice does not duplicate). -/
def addMember (m : List String) (sid : String) : List String :=
  if sid ∈ m then m else m ++ [sid]

/-- `socket.join(r)`: insert `sid` into room `r`, creating the room if
absent. -/
def roomsJoin : List (String × List String) → String → String → List (String × List String)
  | [], r, sid => [(r, [sid])]
  | rm :: rest, r, sid =>
    if rm.1 = r then (rm.1, addMember rm.2 sid) :: rest
    else rm :: roomsJoin rest r sid

/-- Socket.IO's cleanup on disconnect: the socket leaves every room. -/
def roomsEvict (rooms : List (String × List String)) (sid : String) :
    List (String × List String) :=
  rooms.map (fun rm => (rm.1, rm.2.filter (fun m => m != sid)))

/-- In-place update of the session fields of a connected socket. -/
def setSocket (sockets : List (String × Session)) (sid : String) (s : Session) :
    List (String × Session) :=
  sockets.map (fun kv => if kv.1 = sid then (sid, s) else kv)

/-- The `usersInRoom` computation of the join handler: each member id is
mapped through the live socket table to `{socketId, username, userRole}`,
and entries whose socket is missing are dropped (`.filter(Boolean)`). -/
def snapshotRoom (st : ServerState) (r : String) : List RoomUser :=
  (roomMembers st r).filterMap (fun sid =>
    (st.sockets.lookup sid).map (fun s => ⟨sid, s.username, s.userRole⟩))

/-- `socket.to(r).emit(event, p)`: deliver `p` to every member of room `r`
except the sending socket itself. -/
def broadcastExcept (st : ServerState) (r sid event : String) (p : Payload) : List Emit :=
  ((roomMembers st r).filter (fun m => m != sid)).map (fun m => Emit.msg m event p)

/-- The validation pipeline of the `join-whiteboard` handler, in source
order.  `Except.error` carries the message of the `socket.emit('error', ...)`
taken on that branch; a token `jwt.verify` rejects throws into the handler's
catch-all, whose message is `'Failed to join whiteboard'`.  On success the
resolved user, the whiteboard id and the permission decision are returned. -/
def joinAuth (env : Env) (whiteboardId token : Option String) :
    Except String (User × String × String × Bool) :=
  match token with
  | none => .error "Authentication required"
  | some tok =>
    match env.tokens.lookup tok with
    | none => .error "Failed to join whiteboard"
    | some uid =>
      match findUser env uid with
      | none => .error "User not found"
      | some user =>
        match whiteboardId with
        | none => .error "Whiteboard not found"
        | some wid =>
          match findWhiteboard env wid with
          | none => .error "Whiteboard not found"
          | some wb =>
            match checkPermissions wb user.id with
            | none => .error "Access denied"
            | some (role, canEdit) => .ok (user, wid, role, canEdit)

/-- The `join-whiteboard` handler: a failed validation leaves the state
unchanged and sends the one error to the joiner; on success the socket
joins the room, its session fields are stored, `user-joined` goes to every
other member of the room, and `room-info` — with the membership snapshot
computed after admission — goes to the joiner. -/
def joinWhiteboard (env : Env) (st : ServerState) (sid : String)
    (whiteboardId token : Option String) : ServerState × List Emit :=
  match joinAuth env whiteboardId token with
  | .error m => (st, [errEmit sid m])
  | .ok (user, wid, role, canEdit) =>
    let st1 : ServerState :=
      { sockets := setSocket st.sockets sid
          ⟨some user.id, some user.username, some role, some canEdit, some wid⟩,
        rooms := roomsJoin st.rooms wid sid }
    let arrival := ((roomMembers st1 wid).filter (fun m => m != sid)).map (fun m =>
      Emit.msg m "user-joined"
        [("userId", some user.id), ("username", some user.username),
         ("userRole", some role), ("socketId", some sid)])
    (st1, arrival ++ [Emit.roomInfo sid wid (snapshotRoom st1 wid) role canEdit])

/-- The event names whose handlers are gated on `socket.canEdit`. -/
def editGatedEvents : List String :=
  ["drawing", "drawing-start", "drawing-end",
   "sticky-note-add", "sticky-note-update", "sticky-note-delete", "undo", "redo"]

/-- The message of the permission error each edit-gated handler emits. -/
def permErrorMsg : String → String
  | "drawing" => "You do not have permission to draw"
  | "drawing-start" => "You do not have permission to draw"
  | "drawing-end" => "You do not have permission to draw"
  | "sticky-note-add" => "You do not have permission to add sticky notes"
  | "sticky-note-update" => "You do not have permission to edit sticky notes"
  | "sticky-note-delete" => "You do not have permission to delete sticky notes"
  | _ => "You do not have permission to perform this action"

/-- The identity tagging `{...data, userId: socket.userId, username:
socket.username}` shared by every edit-gated relay and `clear-board`. -/
def tagSender (data : Payload) (s : Session) : Payload :=
  setKey (setKey data "userId" s.userId) "username" s.username

/-- The body shared by the eight edit-gated handlers: `!socket.canEdit`
(falsy: `undefined` or `false`) emits the permission error and stops,
otherwise the tagged payload is relayed via
`socket.to(socket.whiteboardId)`; with no `whiteboardId` there is no such
room and nobody receives the relay. -/
def handleEditGated (st : ServerState) (sid : String) (s : Session)
    (event : String) (data : Payload) : List Emit :=
  if s.canEdit = some true then
    match s.whiteboardId with
    | some r => broadcastExcept st r sid event (tagSender data s)
    | none => []
  else [errEmit sid (permErrorMsg event)]

/-- The `clear-board` handler: rejected unless `socket.userRole` is
`'owner'` or `'admin'`, otherwise relayed like an edit-gated event. -/
def handleClearBoard (st : ServerState) (sid : String) (s : Session)
    (data : Payload) : List Emit :=
  if s.userRole ≠ some "owner" ∧ s.userRole ≠ some "admin" then
    [errEmit sid "You do not have permission to clear the board"]
  else
    match s.whiteboardId with
    | some r => broadcastExcept st r sid "clear-board" (tagSender data s)
    | none => []

/-- The `cursor-move` handler: guarded only by `if (socket.whiteboardId)`
(JS truthiness: `undefined` and `""` are falsy), with no permission gate
and no error branch; the relay additionally carries the sender's
`socketId`. -/
def handleCursorMove (st : ServerState) (sid : String) (s : Session)
    (data : Payload) : List Emit :=
  match s.whiteboardId with
  | some r =>
    if r = "" then []
    else broadcastExcept st r sid "cursor-move"
      (setKey (tagSender data s) "socketId" (some sid))
  | none => []

/-- Dispatch of one synchronous inbound message to its registered handler;
an unregistered event name is ignored. -/
def handleMessage (st : ServerState) (sid : String) (s : Session)
    (event : String) (data : Payload) : List Emit :=
  if editGatedEvents.contains event then handleEditGated st sid s event data
  else if event = "clear-board" then handleClearBoard st sid s data
  else if event = "cursor-move" then handleCursorMove st sid s data
  else []

/-- The `disconnect` handler plus Socket.IO's own cleanup: `user-left` to
the other members of `socket.whiteboardId` (when set and truthy), then the
socket leaves every room and its session object is destroyed. -/
def handleDisconnect (st : ServerState) (sid : String) (s : Session) :
    ServerState × List Emit :=
  let emits :=
    match s.whiteboardId with
    | some r =>
      if r = "" then []
      else broadcastExcept st r sid "user-left"
        [("userId", s.userId), ("username", s.username), ("socketId", some sid)]
    | none => []
  (⟨st.sockets.filter (fun kv => kv.1 != sid), roomsEvict st.rooms sid⟩, emits)

/-- One transport-level event arriving at the server. -/
inductive Event where
  | connect (sid : String)
  | join (sid : String) (whiteboardId token : Option String)
  | message (sid : String) (event : String) (data : Payload)
  | disconnect (sid : String)
deriving DecidableEq, Repr

/-- Process one event.  Non-connect events can only originate from a
connected socket; a connect with an id already in use cannot happen at the
transport layer and is ignored. -/
def step (env : Env) (st : ServerState) (e : Event) : ServerState × List Emit :=
  match e with
  | .connect sid =>
    if st.sockets.any (fun kv => kv.1 == sid) then (st, [])
    else ({ st with sockets := st.sockets ++ [(sid, Session.fresh)] }, [])
  | .join sid wid tok =>
    match st.sockets.lookup sid with
    | some _ => joinWhiteboard env st sid wid tok
    | none => (st, [])
  | .message sid event data =>
    match st.sockets.lookup sid with
    | some s => (st, handleMessage st sid s event data)
    | none => (st, [])
  | .disconnect sid =>
    match st.sockets.lookup sid with
    | some s => handleDisconnect st sid s
    | none => (st, [])

/-- The server state reached after a finite event trace. -/
def run (env : Env) (es : List Event) : ServerState :=
  es.foldl (fun st e => (step env st e).1) ServerState.empty

theorem lookup_eq_none_iff {α : Type} (l : List (String × α)) (k : String) :
    l.lookup k = none ↔ k ∉ l.map Prod.fst := by
  induction l with
  | nil => simp [List.lookup]
  | cons a t ih =>
    rcases eq_or_ne k a.1 with h | h
    · simp [List.lookup, h]
    · simp [List.lookup, beq_false_of_ne h, ih, h]

theorem lookup_isSome_iff {α : Type} (l : List (String × α)) (k : String) :
    (l.lookup k).isSome ↔ k ∈ l.map Prod.fst := by
  rw [← Option.ne_none_iff_isSome, ne_eq, lookup_eq_none_iff, not_not]

theorem any_fst_beq {α : Type} (l : List (String × α)) (sid : String) :
    l.any (fun kv => kv.1 == sid) = true ↔ sid ∈ l.map Prod.fst := by
  simp [List.any_eq_true, List.mem_map]

theorem membersOf_cons (x : String) (m : List String)
    (rest : List (String × List String)) (r : String) :
    membersOf ((x, m) :: rest) r = if r = x then m else membersOf rest r := by
  rcases eq_or_ne r x with h | h
  · simp [membersOf, List.lookup, h]
  · simp [membersOf, List.lookup, beq_false_of_ne h, h]

theorem membersOf_roomsJoin (rooms : List (String × List String)) (r' sid r : String) :
    membersOf (roomsJoin rooms r' sid) r =
      if r = r' then addMember (membersOf rooms r') sid else membersOf rooms r := by
  induction rooms with
  | nil =>
    rcases eq_or_ne r r' with h | h
    · simp [roomsJoin, membersOf, List.lookup, h, addMember]
    · simp [roomsJoin, membersOf, List.lookup, beq_false_of_ne h, h]
  | cons a rest ih =>
    obtain ⟨x, m⟩ := a
    rcases eq_or_ne x r' with h1 | h1
    · subst h1
      by_cases h2 : r = x <;> simp [roomsJoin, membersOf_cons, h2]
    · have hx : roomsJoin ((x, m) :: rest) r' sid = (x, m) :: roomsJoin rest r' sid := by
        simp [roomsJoin, h1]
      by_cases h2 : r = x
      · have hr : r ≠ r' := fun hh => h1 (h2.symm.trans hh)
        simp [hx, membersOf_cons, h2, hr, h1]
      · simp [hx, membersOf_cons, h2, Ne.symm h1, ih]

theorem membersOf_roomsEvict (rooms : List (String × List String)) (sid r : String) :
    membersOf (roomsEvict rooms sid) r = (membersOf rooms r).filter (fun m => m != sid) := by
  induction rooms with
  | nil => simp [roomsEvict, membersOf, List.lookup]
  | cons a rest ih =>
    obtain ⟨x, m⟩ := a
    have hx : roomsEvict ((x, m) :: rest) sid =
        (x, m.filter (fun y => y != sid)) :: roomsEvict rest sid := rfl
    by_cases h : r = x
    · simp [hx, membersOf_cons, h]
    · simp [hx, membersOf_cons, h, ih]

theorem map_fst_setSocket (sockets : List (String × Session)) (sid : String) (s : Session) :
    (setSocket sockets sid s).map Prod.fst = sockets.map Prod.fst := by
  induction sockets with
  | nil => rfl
  | cons a t ih =>
    obtain ⟨k, v⟩ := a
    simp only [setSocket, List.map_cons] at ih ⊢
    by_cases h : k = sid
    · simp [h, ih]
    · simp [h, ih]

theorem map_fst_filter_ne (sockets : List (String × Session)) (sid : String) :
    (sockets.filter (fun kv => kv.1 != sid)).map Prod.fst =
      (sockets.map Prod.fst).filter (fun k => k != sid) := by
  induction sockets with
  | nil => rfl
  | cons a t ih =>
    obtain ⟨k, v⟩ := a
    by_cases h : k = sid
    · simp [List.filter_cons, h, ih]
    · simp [List.filter_cons, bne_iff_ne, h, ih]

theorem addMember_nodup (m : List String) (sid : String) (h : m.Nodup) :
    (addMember m sid).Nodup := by
  unfold addMember
  split
  · exact h
  · next hn => simp [List.nodup_append, h, hn]

theorem mem_addMember (m : List String) (sid x : String) :
    x ∈ addMember m sid ↔ x ∈ m ∨ x = sid := by
  unfold addMember
  split
  · next h =>
    constructor
    · exact Or.inl
    · rintro (hx | rfl)
      · exact hx
      · exact h
  · simp

theorem snapshot_ids (sockets : List (String × Session)) (ms : List String)
    (h : ∀ m ∈ ms, (sockets.lookup m).isSome) :
    (ms.filterMap (fun sid => (sockets.lookup sid).map
      (fun s => RoomUser.mk sid s.username s.userRole))).map RoomUser.socketId = ms := by
  induction ms with
  | nil => simp
  | cons a t ih =>
    have ha := h a (by simp)
    rcases hs : sockets.lookup a with _ | s
    · rw [hs] at ha; simp at ha
    · have ih2 := ih (fun m hm => h m (by simp [hm]))
      simp [List.filterMap_cons, hs, ih2]

/-- The Room Registry as the spec describes it, derived from the event
history alone: the set of connected sessions, and per room exactly the
sessions that have successfully joined it (while connected, with the join
validation succeeding) and have not since disconnected. -/
structure SpecRegistry where
  connected : List String
  rooms : List (String × List String)
deriving DecidableEq, Repr

/-- One history step of the spec-side registry: a connect adds the session,
a successful join adds it to the joined room's member set, a disconnect of
a connected session removes it everywhere; nothing else changes
membership. -/
def specStep (env : Env) (sr : SpecRegistry) (e : Event) : SpecRegistry :=
  match e with
  | .connect sid =>
    if sid ∈ sr.connected then sr else { sr with connected := sr.connected ++ [sid] }
  | .join sid wid tok =>
    if sid ∈ sr.connected then
      match joinAuth env wid tok with
      | .ok (_, wid2, _, _) => { sr with rooms := roomsJoin sr.rooms wid2 sid }
      | .error _ => sr
    else sr
  | .message _ _ _ => sr
  | .disconnect sid =>
    if sid ∈ sr.connected then
      { connected := sr.connected.filter (fun m => m != sid), rooms := roomsEvict sr.rooms sid }
    else sr

/-- The spec-side registry after a finite event trace. -/
def specRun (env : Env) (es : List Event) : SpecRegistry :=
  es.foldl (specStep env) ⟨[], []⟩

/-- Coupling invariant between the implementation state and the spec-side
registry: the connected sets agree, the room tables agree, and every room's
member list is duplicate-free and holds only live sockets. -/
def InvState (st : ServerState) (sr : SpecRegistry) : Prop :=
  st.sockets.map Prod.fst = sr.connected ∧
  st.rooms = sr.rooms ∧
  ∀ r : String, (roomMembers st r).Nodup ∧
    ∀ m ∈ roomMembers st r, m ∈ st.sockets.map Prod.fst

theorem invState_empty : InvState ServerState.empty ⟨[], []⟩ := by
  refine ⟨rfl, rfl, fun r => ⟨?_, ?_⟩⟩ <;>
    simp [roomMembers, membersOf, ServerState.empty, List.lookup]

theorem invState_step (env : Env) (st : ServerState) (sr : SpecRegistry) (e : Event)
    (h : InvState st sr) : InvState (step env st e).1 (specStep env sr e) := by
  obtain ⟨hconn, hrooms, hmem⟩ := h
  cases e with
  | connect sid =>
    simp only [step, specStep]
    by_cases hc : sid ∈ st.sockets.map Prod.fst
    · rw [if_pos ((any_fst_beq _ _).mpr hc), if_pos (hconn ▸ hc)]
      exact ⟨hconn, hrooms, hmem⟩
    · rw [if_neg (fun hh => hc ((any_fst_beq _ _).mp hh)),
        if_neg (fun hh => hc (hconn ▸ hh))]
      refine ⟨by simp [hconn], hrooms, fun r => ⟨(hmem r).1, fun m hm => ?_⟩⟩
      have := (hmem r).2 m hm
      simp only [List.map_append]
      exact List.mem_append_left _ this
  | join sid wid tok =>
    simp only [step, specStep]
    rcases hl : st.sockets.lookup sid with _ | s
    · have hn : sid ∉ sr.connected := by
        rw [← hconn]; exact (lookup_eq_none_iff _ _).mp hl
      simp only [hl]
      rw [if_neg hn]
      exact ⟨hconn, hrooms, hmem⟩
    · have hs2 : sid ∈ st.sockets.map Prod.fst := by
        rw [← lookup_isSome_iff, hl]; rfl
      have hm2 : sid ∈ sr.connected := hconn ▸ hs2
      simp only [hl]
      rw [if_pos hm2]
      rcases ha : joinAuth env wid tok with m | out
      · simp only [joinWhiteboard, ha]
        exact ⟨hconn, hrooms, hmem⟩
      · obtain ⟨user, wid2, role, ce⟩ := out
        simp only [joinWhiteboard, ha]
        refine ⟨?_, ?_, fun r => ?_⟩
        · simpa [map_fst_setSocket] using hconn
        · simp [hrooms]
        · have hr : roomMembers
              (⟨setSocket st.sockets sid
                  ⟨some user.id, some user.username, some role, some ce, some wid2⟩,
                roomsJoin st.rooms wid2 sid⟩ : ServerState) r =
              if r = wid2 then addMember (membersOf st.rooms wid2) sid
              else membersOf st.rooms r := by
            simp [roomMembers, membersOf_roomsJoin]
          rw [hr]
          by_cases hw : r = wid2
        -- the joined room gains (at most) the joiner, which is live
          · rw [if_pos hw]
            constructor
            · exact addMember_nodup _ _ (hmem wid2).1
            · intro m hm
              rcases (mem_addMember _ _ _).mp hm with hm1 | hm1
              · have := (hmem wid2).2 m hm1
                simpa [map_fst_setSocket] using this
              · subst hm1
                simpa [map_fst_setSocket] using hs2
          · rw [if_neg hw]
            refine ⟨(hmem r).1, fun m hm => ?_⟩
            have := (hmem r).2 m hm
            simpa [map_fst_setSocket] using this
  | message sid ev data =>
    simp only [step, specStep]
    rcases hl : st.sockets.lookup sid with _ | s <;> simp only [hl] <;>
      exact ⟨hconn, hrooms, hmem⟩
  | disconnect sid =>
    simp only [step, specStep]
    rcases hl : st.sockets.lookup sid with _ | s
    · have hn : sid ∉ sr.connected := by
        rw [← hconn]; exact (lookup_eq_none_iff _ _).mp hl
      simp only [hl]
      rw [if_neg hn]
      exact ⟨hconn, hrooms, hmem⟩
    · have hs2 : sid ∈ st.sockets.map Prod.fst := by
        rw [← lookup_isSome_iff, hl]; rfl
      have hm2 : sid ∈ sr.connected := hconn ▸ hs2
      simp only [hl]
      rw [if_pos hm2]
      simp only [handleDisconnect]
      refine ⟨?_, ?_, fun r => ?_⟩
      · rw [map_fst_filter_ne, hconn]
      · simp [hrooms]
      · have hr : roomMembers (⟨st.sockets.filter (fun kv => kv.1 != sid),
            roomsEvict st.rooms sid⟩ : ServerState) r =
            (membersOf st.rooms r).filter (fun m => m != sid) := by
          simp [roomMembers, membersOf_roomsEvict]
        rw [hr]
        refine ⟨List.Nodup.filter _ (hmem r).1, fun m hm => ?_⟩
        have h1 := List.mem_filter.mp hm
        have h2 := (hmem r).2 m h1.1
        rw [map_fst_filter_ne]
        exact List.mem_filter.mpr ⟨h2, h1.2⟩

theorem invState_run (env : Env) (es : List Event) :
    ∀ (st : ServerState) (sr : SpecRegistry), InvState st sr →
      InvState (es.foldl (fun st e => (step env st e).1) st) (es.foldl (specStep env) sr) := by
  induction es with
  | nil => intro st sr h; exact h
  | cons e rest ih =>
    intro st sr h
    exact ih _ _ (invState_step env st sr e h)

/-- C6: after every finite trace of connects, joins, message events and
disconnects, the membership snapshot of each room (the `usersInRoom` list
the joiner's `room-info` is built from) lists exactly the sessions that
have successfully joined the room and have not since disconnected — one
entry per member, no duplicates, and no stale entry surviving the
defensive null-filter. -/
theorem snapshot_exact (env : Env) (es : List Event) (r : String) :
    roomMembers (run env es) r = membersOf (specRun env es).rooms r ∧
    (roomMembers (run env es) r).Nodup ∧
    (snapshotRoom (run env es) r).map RoomUser.socketId = roomMembers (run env es) r := by
  have h := invState_run env es ServerState.empty ⟨[], []⟩ invState_empty
  obtain ⟨hconn, hrooms, hmem⟩ := h
  refine ⟨?_, (hmem r).1, ?_⟩
  · simp [run, specRun, roomMembers, hrooms]
  · exact snapshot_ids _ _ (fun m hm => by
      rw [lookup_isSome_iff]
      exact (hmem r).2 m hm)

theorem lookup_setSocket (sockets : List (String × Session)) (sid : String) (s : Session) :
    (setSocket sockets sid s).lookup sid = (sockets.lookup sid).map (fun _ => s) := by
  induction sockets with
  | nil => rfl
  | cons a t ih =>
    obtain ⟨k, v⟩ := a
    simp only [setSocket, List.map_cons] at ih ⊢
    by_cases h : k = sid
    · subst h
      rw [if_pos rfl]
      simp [List.lookup]
    · rw [if_neg h]
      simp [List.lookup, beq_false_of_ne (Ne.symm h), ih]

theorem snapshot_socketId_mem (st : ServerState) (r : String) (ru : RoomUser)
    (h : ru ∈ snapshotRoom st r) : ru.socketId ∈ roomMembers st r := by
  simp only [snapshotRoom, List.mem_filterMap] at h
  obtain ⟨m, hm, he⟩ := h
  rcases hl : st.sockets.lookup m with _ | s
  · rw [hl] at he; simp at he
  · rw [hl] at he
    simp only [Option.map_some'] at he
    cases he
    exact hm

/-- C3: an edit-gated inbound event (draw start, draw, draw end, sticky-note
add/update/delete, undo, redo) from a session whose cached `canEdit` is not
`true` is never relayed to any other room member: the handler's entire
output is exactly one permission-denied error, emitted to the sending
session only. -/
theorem editGated_denied (st : ServerState) (sid : String) (s : Session)
    (event : String) (data : Payload)
    (hev : event ∈ editGatedEvents) (hce : s.canEdit ≠ some true) :
    handleMessage st sid s event data = [errEmit sid (permErrorMsg event)] := by
  have hc : editGatedEvents.contains event = true := List.elem_iff.mpr hev
  unfold handleMessage
  rw [if_pos hc]
  unfold handleEditGated
  rw [if_neg hce]

/-- Witness for `editGated_denied`: a fresh (never-joined) session sending
`drawing` receives exactly the permission error. -/
theorem editGated_denied_witness :
    handleMessage ServerState.empty "A" Session.fresh "drawing" [] =
      [errEmit "A" (permErrorMsg "drawing")] :=
  editGated_denied ServerState.empty "A" Session.fresh "drawing" []
    (by decide) (by decide)

/-- C9: a `cursor-move` from a session currently in room `r` is relayed to
every other member of `r`, with the sender's `userId`, `username` and
`socketId` attached, with no permission gate: no hypothesis on the
session's `canEdit` or role is needed. -/
theorem cursorMove_ungated (st : ServerState) (sid : String) (s : Session)
    (data : Payload) (r : String)
    (hw : s.whiteboardId = some r) (hr : r ≠ "") :
    handleMessage st sid s "cursor-move" data =
      broadcastExcept st r sid "cursor-move"
        (setKey (tagSender data s) "socketId" (some sid)) := by
  simp [handleMessage, handleCursorMove, hw, hr, editGatedEvents, List.contains, List.elem]

/-- Witness for `cursorMove_ungated`: a `view`-role session with
`canEdit = false` still gets its cursor relayed to the other member. -/
theorem cursorMove_ungated_witness :
    handleMessage
        ⟨[("A", ⟨some "u1", some "alice", some "view", some false, some "w"⟩),
          ("B", ⟨some "u2", some "bob", some "owner", some true, some "w"⟩)],
         [("w", ["A", "B"])]⟩
        "A" ⟨some "u1", some "alice", some "view", some false, some "w"⟩
        "cursor-move" [] =
      broadcastExcept
        ⟨[("A", ⟨some "u1", some "alice", some "view", some false, some "w"⟩),
          ("B", ⟨some "u2", some "bob", some "owner", some true, some "w"⟩)],
         [("w", ["A", "B"])]⟩
        "w" "A" "cursor-move"
        (setKey (tagSender [] ⟨some "u1", some "alice", some "view", some false, some "w"⟩)
          "socketId" (some "A")) :=
  cursorMove_ungated _ "A" _ [] "w" rfl (by decide)

/-- C10: a session that has never successfully joined a room (no cached
room id, `canEdit` or role) has `cursor-move` silently dropped — no
broadcast and no error — while every edit-gated event, and `clear-board`,
produce a permission-denied-style error to the sender only (never the
authentication error) and no broadcast. -/
theorem preJoin_behaviour (st : ServerState) (sid : String) (s : Session)
    (data : Payload)
    (h1 : s.whiteboardId = none) (h2 : s.canEdit = none) (h3 : s.userRole = none) :
    handleMessage st sid s "cursor-move" data = [] ∧
    (∀ event ∈ editGatedEvents,
      handleMessage st sid s event data = [errEmit sid (permErrorMsg event)] ∧
      permErrorMsg event ≠ "Authentication required") ∧
    handleMessage st sid s "clear-board" data =
      [errEmit sid "You do not have permission to clear the board"] := by
  refine ⟨?_, fun event hev => ⟨?_, ?_⟩, ?_⟩
  · simp [handleMessage, handleCursorMove, h1, editGatedEvents, List.contains, List.elem]
  · have hc : editGatedEvents.contains event = true := List.elem_iff.mpr hev
    unfold handleMessage
    rw [if_pos hc]
    unfold handleEditGated
    rw [if_neg (by simp [h2])]
  · fin_cases hev <;> decide
  · simp [handleMessage, handleClearBoard, h3, editGatedEvents, List.contains, List.elem]

/-- Witness for `preJoin_behaviour` at a fresh session: `cursor-move` is
dropped and `undo` gets the permission error. -/
theorem preJoin_behaviour_witness :
    handleMessage ServerState.empty "A" Session.fresh "cursor-move" [] = [] ∧
    handleMessage ServerState.empty "A" Session.fresh "undo" [] =
      [errEmit "A" (permErrorMsg "undo")] ∧
    handleMessage ServerState.empty "A" Session.fresh "clear-board" [] =
      [errEmit "A" "You do not have permission to clear the board"] :=
  ⟨(preJoin_behaviour ServerState.empty "A" Session.fresh [] rfl rfl rfl).1,
   ((preJoin_behaviour ServerState.empty "A" Session.fresh [] rfl rfl rfl).2.1
      "undo" (by decide)).1,
   (preJoin_behaviour ServerState.empty "A" Session.fresh [] rfl rfl rfl).2.2⟩

/-- C7: `clear-board` from a session whose cached role is `"edit"` (or a
view-tier role `"view"`/`"viewer"`) is rejected with one error to the
sender and nothing is relayed; from a session whose cached role is
`"owner"` or `"admin"` it is relayed, tagged with the sender identity, to
every other member of the sender's room. -/
theorem clearBoard_admin_gate (st : ServerState) (sid : String) (s : Session)
    (data : Payload) (r : String) :
    (s.userRole = some "edit" ∨ s.userRole = some "view" ∨ s.userRole = some "viewer" →
      handleMessage st sid s "clear-board" data =
        [errEmit sid "You do not have permission to clear the board"]) ∧
    (s.userRole = some "owner" ∨ s.userRole = some "admin" → s.whiteboardId = some r →
      handleMessage st sid s "clear-board" data =
        broadcastExcept st r sid "clear-board" (tagSender data s)) := by
  constructor
  · rintro (h | h | h) <;>
      simp [handleMessage, handleClearBoard, h, editGatedEvents, List.contains, List.elem]
  · rintro (h | h) hw <;>
      simp [handleMessage, handleClearBoard, h, hw, editGatedEvents, List.contains, List.elem]

/-- Witness for `clearBoard_admin_gate`: an `edit` collaborator is refused,
the owner's `clear-board` is relayed to the other member. -/
theorem clearBoard_admin_gate_witness :
    handleMessage
        ⟨[("A", ⟨some "u1", some "alice", some "edit", some true, some "w"⟩),
          ("B", ⟨some "u2", some "bob", some "owner", some true, some "w"⟩)],
         [("w", ["A", "B"])]⟩
        "A" ⟨some "u1", some "alice", some "edit", some true, some "w"⟩
        "clear-board" [] =
      [errEmit "A" "You do not have permission to clear the board"] ∧
    handleMessage
        ⟨[("A", ⟨some "u1", some "alice", some "edit", some true, some "w"⟩),
          ("B", ⟨some "u2", some "bob", some "owner", some true, some "w"⟩)],
         [("w", ["A", "B"])]⟩
        "B" ⟨some "u2", some "bob", some "owner", some true, some "w"⟩
        "clear-board" [] =
      broadcastExcept
        ⟨[("A", ⟨some "u1", some "alice", some "edit", some true, some "w"⟩),
          ("B", ⟨some "u2", some "bob", some "owner", some true, some "w"⟩)],
         [("w", ["A", "B"])]⟩
        "w" "B" "clear-board"
        (tagSender [] ⟨some "u2", some "bob", some "owner", some true, some "w"⟩) :=
  ⟨(clearBoard_admin_gate _ "A" _ [] "w").1 (Or.inl rfl),
   (clearBoard_admin_gate _ "B" _ [] "w").2 (Or.inl rfl) rfl⟩

/-- C5: a join attempt that fails — whiteboard missing, or the user has no
owner/collaborator/public standing — leaves the server state completely
unchanged (no membership created anywhere, the session's cached room id,
role and `canEdit` untouched) and produces exactly one error to the joining
socket: in particular no `room-info` is sent. -/
theorem join_failure_isolated (env : Env) (st : ServerState) (sid : String)
    (wid tok : Option String) (m : String)
    (ha : joinAuth env wid tok = Except.error m)
    (_hm : m = "Whiteboard not found" ∨ m = "Access denied") :
    joinWhiteboard env st sid wid tok = (st, [errEmit sid m]) := by
  simp [joinWhiteboard, ha]

/-- Witness for `join_failure_isolated`: a valid user joining a
nonexistent whiteboard gets exactly `Whiteboard not found` and the state
stays empty. -/
theorem join_failure_isolated_witness :
    joinWhiteboard ⟨[("t", "u1")], [⟨"u1", "alice"⟩], []⟩ ServerState.empty
        "A" (some "w") (some "t") =
      (ServerState.empty, [errEmit "A" "Whiteboard not found"]) :=
  join_failure_isolated ⟨[("t", "u1")], [⟨"u1", "alice"⟩], []⟩ ServerState.empty
    "A" (some "w") (some "t") "Whiteboard not found" rfl (Or.inl rfl)

/-- C8: when the transport of a session that is a member of room `r`
closes, the session is removed from every room's member set, each remaining
member of `r` receives a `user-left` notice carrying the departed socket's
id and display name, and the snapshot of `r` afterwards no longer lists the
departed session. -/
theorem disconnect_cleanup (st : ServerState) (sid : String) (s : Session) (r : String)
    (hw : s.whiteboardId = some r) (hr : r ≠ "") :
    (handleDisconnect st sid s).2 =
      ((roomMembers st r).filter (fun m => m != sid)).map (fun m =>
        Emit.msg m "user-left"
          [("userId", s.userId), ("username", s.username), ("socketId", some sid)]) ∧
    (∀ r' : String, sid ∉ roomMembers (handleDisconnect st sid s).1 r') ∧
    ∀ ru ∈ snapshotRoom (handleDisconnect st sid s).1 r, ru.socketId ≠ sid := by
  refine ⟨?_, ?_, ?_⟩
  · simp [handleDisconnect, hw, hr, broadcastExcept]
  · intro r' hmem
    have heq : roomMembers (handleDisconnect st sid s).1 r' =
        (membersOf st.rooms r').filter (fun m => m != sid) := by
      simp [handleDisconnect, roomMembers, membersOf_roomsEvict]
    rw [heq] at hmem
    have := (List.mem_filter.mp hmem).2
    simp at this
  · intro ru hru
    have h1 := snapshot_socketId_mem _ _ _ hru
    have heq : roomMembers (handleDisconnect st sid s).1 r =
        (membersOf st.rooms r).filter (fun m => m != sid) := by
      simp [handleDisconnect, roomMembers, membersOf_roomsEvict]
    rw [heq] at h1
    have := (List.mem_filter.mp h1).2
    simpa using this

/-- Witness for `disconnect_cleanup`: B disconnects from room `w`; A gets
the `user-left` notice with B's id and name, B is in no room afterwards and
the `w` snapshot excludes B. -/
theorem disconnect_cleanup_witness :
    (handleDisconnect
        ⟨[("A", ⟨some "u1", some "alice", some "owner", some true, some "w"⟩),
          ("B", ⟨some "u2", some "bob", some "edit", some true, some "w"⟩)],
         [("w", ["A", "B"])]⟩
        "B" ⟨some "u2", some "bob", some "edit", some true, some "w"⟩).2 =
      ((roomMembers
          ⟨[("A", ⟨some "u1", some "alice", some "owner", some true, some "w"⟩),
            ("B", ⟨some "u2", some "bob", some "edit", some true, some "w"⟩)],
           [("w", ["A", "B"])]⟩ "w").filter (fun m => m != "B")).map (fun m =>
        Emit.msg m "user-left"
          [("userId", some "u2"), ("username", some "bob"), ("socketId", some "B")]) ∧
    (∀ r' : String, "B" ∉ roomMembers
        (handleDisconnect
          ⟨[("A", ⟨some "u1", some "alice", some "owner", some true, some "w"⟩),
            ("B", ⟨some "u2", some "bob", some "edit", some true, some "w"⟩)],
           [("w", ["A", "B"])]⟩
          "B" ⟨some "u2", some "bob", some "edit", some true, some "w"⟩).1 r') ∧
    ∀ ru ∈ snapshotRoom
        (handleDisconnect
          ⟨[("A", ⟨some "u1", some "alice", some "owner", some true, some "w"⟩),
            ("B", ⟨some "u2", some "bob", some "edit", some true, some "w"⟩)],
           [("w", ["A", "B"])]⟩
          "B" ⟨some "u2", some "bob", some "edit", some true, some "w"⟩).1 "w",
      ru.socketId ≠ "B" :=
  disconnect_cleanup _ "B" _ "w" rfl (by decide)

/-- The relayed payload as claim C4 words it: the client payload with the
sender's connection id, user id and display name attached, identity fields
overriding the client's. -/
def claimedRelayPayload (data : Payload) (s : Session) (sid : String) : Payload :=
  setKey (tagSender data s) "socketId" (some sid)

/-- Counterexample to C4: a permitted `drawing` relay does not attach the
sender's connection id — the delivered payload has no `socketId` key at
all, so it differs from the payload the claim describes. -/
theorem relay_missing_socketId_cex :
    handleMessage
        ⟨[("A", ⟨some "u1", some "alice", some "owner", some true, some "w"⟩),
          ("B", ⟨some "u2", some "bob", some "view", some false, some "w"⟩)],
         [("w", ["A", "B"])]⟩
        "A" ⟨some "u1", some "alice", some "owner", some true, some "w"⟩
        "drawing" [] =
      [Emit.msg "B" "drawing" [("userId", some "u1"), ("username", some "alice")]] ∧
    ([("userId", some "u1"), ("username", some "alice")] : Payload).lookup "socketId" = none ∧
    [Emit.msg "B" "drawing" [("userId", some "u1"), ("username", some "alice")]] ≠
      [Emit.msg "B" "drawing"
        (claimedRelayPayload []
          ⟨some "u1", some "alice", some "owner", some true, some "w"⟩ "A")] := by
  refine ⟨by decide, rfl, by decide⟩

/-- C4 (amended): an event that passes its permission gate is relayed to
every member of the sender's cached room except the sender itself, never to
the sender; the delivered payload is the client payload with the sender's
server-side `userId` and `username` overriding any client-supplied values,
while the sender's connection id is attached only on `cursor-move` — the
edit-gated relays and `clear-board` omit it. -/
theorem relay_identity_tagging (st : ServerState) (sid : String) (s : Session)
    (data : Payload) (r : String) (hw : s.whiteboardId = some r) :
    (∀ event ∈ editGatedEvents, s.canEdit = some true →
      handleMessage st sid s event data =
        broadcastExcept st r sid event (tagSender data s)) ∧
    (s.userRole = some "owner" ∨ s.userRole = some "admin" →
      handleMessage st sid s "clear-board" data =
        broadcastExcept st r sid "clear-board" (tagSender data s)) ∧
    (r ≠ "" → handleMessage st sid s "cursor-move" data =
      broadcastExcept st r sid "cursor-move"
        (setKey (tagSender data s) "socketId" (some sid))) ∧
    (∀ event' p e, e ∈ broadcastExcept st r sid event' p → e.target ≠ sid) := by
  refine ⟨fun event hev hce => ?_, fun hrole => ?_, fun hr => ?_, fun event' p e he => ?_⟩
  · have hc : editGatedEvents.contains event = true := List.elem_iff.mpr hev
    unfold handleMessage
    rw [if_pos hc]
    unfold handleEditGated
    rw [if_pos hce, hw]
  · rcases hrole with h | h <;>
      simp [handleMessage, handleClearBoard, h, hw, editGatedEvents, List.contains, List.elem]
  · simp [handleMessage, handleCursorMove, hw, hr, editGatedEvents, List.contains, List.elem]
  · simp only [broadcastExcept, List.mem_map] at he
    obtain ⟨m, hm, rfl⟩ := he
    have := (List.mem_filter.mp hm).2
    simpa [Emit.target] using this

/-- Witness for `relay_identity_tagging`: a permitted `drawing` carrying a
spoofed `userId` is relayed to the other member with the server-side
identity overriding it. -/
theorem relay_identity_tagging_witness :
    handleMessage
        ⟨[("A", ⟨some "u1", some "alice", some "owner", some true, some "w"⟩),
          ("B", ⟨some "u2", some "bob", some "view", some false, some "w"⟩)],
         [("w", ["A", "B"])]⟩
        "A" ⟨some "u1", some "alice", some "owner", some true, some "w"⟩
        "drawing" [("userId", some "spoof")] =
      broadcastExcept
        ⟨[("A", ⟨some "u1", some "alice", some "owner", some true, some "w"⟩),
          ("B", ⟨some "u2", some "bob", some "view", some false, some "w"⟩)],
         [("w", ["A", "B"])]⟩
        "w" "A" "drawing"
        (tagSender [("userId", some "spoof")]
          ⟨some "u1", some "alice", some "owner", some true, some "w"⟩) :=
  (relay_identity_tagging _ "A" _ [("userId", some "spoof")] "w" rfl).1
    "drawing" (by decide) rfl

/-- Counterexample to C2: after the trace connect A, join w1, join w2 the
same session sits in both rooms' member sets — a second join never removes
the session from the first room and no departure notice is produced. -/
theorem second_join_no_migration_cex :
    "A" ∈ roomMembers (run
        ⟨[("t", "u1")], [⟨"u1", "alice"⟩],
         [⟨"w1", "u1", [], false⟩, ⟨"w2", "u1", [], false⟩]⟩
        [Event.connect "A", Event.join "A" (some "w1") (some "t"),
         Event.join "A" (some "w2") (some "t")]) "w1" ∧
    "A" ∈ roomMembers (run
        ⟨[("t", "u1")], [⟨"u1", "alice"⟩],
         [⟨"w1", "u1", [], false⟩, ⟨"w2", "u1", [], false⟩]⟩
        [Event.connect "A", Event.join "A" (some "w1") (some "t"),
         Event.join "A" (some "w2") (some "t")]) "w2" := by
  refine ⟨by decide, by decide⟩

/-- C2 (amended): a second successful join while already a member of
another room does not evict the session from the old room and emits no
departure notice: the session is added to the new room's member set while
remaining in the old one, and only its cached session fields (room id,
role, canEdit, identity) switch to the new room.  A session may therefore
sit in several rooms' member sets at once. -/
theorem second_join_keeps_old_membership (env : Env) (st : ServerState)
    (sid : String) (wid tok : Option String) (r1 : String)
    (user : User) (wid2 role : String) (ce : Bool)
    (ha : joinAuth env wid tok = Except.ok (user, wid2, role, ce))
    (h1 : sid ∈ roomMembers st r1) (hne : r1 ≠ wid2) :
    sid ∈ roomMembers (joinWhiteboard env st sid wid tok).1 r1 ∧
    sid ∈ roomMembers (joinWhiteboard env st sid wid tok).1 wid2 ∧
    (joinWhiteboard env st sid wid tok).1.sockets.lookup sid =
      (st.sockets.lookup sid).map (fun _ =>
        (⟨some user.id, some user.username, some role, some ce, some wid2⟩ : Session)) ∧
    ∀ e ∈ (joinWhiteboard env st sid wid tok).2, e.eventName ≠ "user-left" := by
  have hst : (joinWhiteboard env st sid wid tok).1 =
      ⟨setSocket st.sockets sid
        ⟨some user.id, some user.username, some role, some ce, some wid2⟩,
       roomsJoin st.rooms wid2 sid⟩ := by
    simp [joinWhiteboard, ha]
  refine ⟨?_, ?_, ?_, ?_⟩
  · rw [hst]
    show sid ∈ membersOf (roomsJoin st.rooms wid2 sid) r1
    rw [membersOf_roomsJoin, if_neg hne]
    exact h1
  · rw [hst]
    show sid ∈ membersOf (roomsJoin st.rooms wid2 sid) wid2
    rw [membersOf_roomsJoin, if_pos rfl]
    exact (mem_addMember _ _ _).mpr (Or.inr rfl)
  · rw [hst]
    exact lookup_setSocket _ _ _
  · intro e he
    simp only [joinWhiteboard, ha] at he
    rcases List.mem_append.mp he with h | h
    · obtain ⟨m, hm, rfl⟩ := List.mem_map.mp h
      simp [Emit.eventName]
    · rw [List.mem_singleton] at h
      subst h
      simp [Emit.eventName]

/-- Witness for `second_join_keeps_old_membership`: after connecting and
joining `w1`, a second join of `w2` leaves A in `w1`'s member set, adds it
to `w2`'s, switches its session fields to `w2`, and emits no `user-left`. -/
theorem second_join_keeps_old_membership_witness :
    "A" ∈ roomMembers (joinWhiteboard
        ⟨[("t", "u1")], [⟨"u1", "alice"⟩],
         [⟨"w1", "u1", [], false⟩, ⟨"w2", "u1", [], false⟩]⟩
        (run ⟨[("t", "u1")], [⟨"u1", "alice"⟩],
          [⟨"w1", "u1", [], false⟩, ⟨"w2", "u1", [], false⟩]⟩
          [Event.connect "A", Event.join "A" (some "w1") (some "t")])
        "A" (some "w2") (some "t")).1 "w1" ∧
    "A" ∈ roomMembers (joinWhiteboard
        ⟨[("t", "u1")], [⟨"u1", "alice"⟩],
         [⟨"w1", "u1", [], false⟩, ⟨"w2", "u1", [], false⟩]⟩
        (run ⟨[("t", "u1")], [⟨"u1", "alice"⟩],
          [⟨"w1", "u1", [], false⟩, ⟨"w2", "u1", [], false⟩]⟩
          [Event.connect "A", Event.join "A" (some "w1") (some "t")])
        "A" (some "w2") (some "t")).1 "w2" ∧
    (joinWhiteboard
        ⟨[("t", "u1")], [⟨"u1", "alice"⟩],
         [⟨"w1", "u1", [], false⟩, ⟨"w2", "u1", [], false⟩]⟩
        (run ⟨[("t", "u1")], [⟨"u1", "alice"⟩],
          [⟨"w1", "u1", [], false⟩, ⟨"w2", "u1", [], false⟩]⟩
          [Event.connect "A", Event.join "A" (some "w1") (some "t")])
        "A" (some "w2") (some "t")).1.sockets.lookup "A" =
      ((run ⟨[("t", "u1")], [⟨"u1", "alice"⟩],
          [⟨"w1", "u1", [], false⟩, ⟨"w2", "u1", [], false⟩]⟩
          [Event.connect "A", Event.join "A" (some "w1") (some "t")]).sockets.lookup "A").map
        (fun _ => (⟨some "u1", some "alice", some "owner", some true, some "w2"⟩ : Session)) ∧
    ∀ e ∈ (joinWhiteboard
        ⟨[("t", "u1")], [⟨"u1", "alice"⟩],
         [⟨"w1", "u1", [], false⟩, ⟨"w2", "u1", [], false⟩]⟩
        (run ⟨[("t", "u1")], [⟨"u1", "alice"⟩],
          [⟨"w1", "u1", [], false⟩, ⟨"w2", "u1", [], false⟩]⟩
          [Event.connect "A", Event.join "A" (some "w1") (some "t")])
        "A" (some "w2") (some "t")).2, e.eventName ≠ "user-left" :=
  second_join_keeps_old_membership
    ⟨[("t", "u1")], [⟨"u1", "alice"⟩],
     [⟨"w1", "u1", [], false⟩, ⟨"w2", "u1", [], false⟩]⟩
    (run ⟨[("t", "u1")], [⟨"u1", "alice"⟩],
      [⟨"w1", "u1", [], false⟩, ⟨"w2", "u1", [], false⟩]⟩
      [Event.connect "A", Event.join "A" (some "w1") (some "t")])
    "A" (some "w2") (some "t") "w1" ⟨"u1", "alice"⟩ "w2" "owner" true
    rfl (by decide) (by decide)
